import Mathlib

/-!
# Verification of the gpt-chat-save document-conversion pipeline

Shallow embedding of the conversion core of the `gpt-chat-save` browser
extension: image scaling/skip policy (`content/images.js`), filename
sanitization (`content/utils.js`), the per-turn sanitizer and the main
conversion entry point (`content.js`), the per-image processing loop
(`images.js`, browser part), and the batch scheduler (`processInBatches`).

Numbers are embedded as `Nat`/`ℚ` (exact arithmetic standing for JS
doubles, which are exact on the integral and small-fraction values the
code deals in); DOM subtrees as a rose tree of elements and text nodes;
fallible code as `Except`/`Option`; external collaborators (DOMPurify,
NFKC normalization, highlight.js) as function parameters.
-/

namespace GptChatSave

/-! ## Scaling & skip policy (`content/images.js`) -/

/-- JS `s.startsWith(p)`: `p` is a prefix of `s`.  JS strings are
embedded via their character sequences. -/
def jsStartsWith (s p : String) : Bool := p.data.isPrefixOf s.data

/-- `MIN_IMAGE_SIZE`: minimum dimension to process (smaller = likely UI icons). -/
def MIN_IMAGE_SIZE : Nat := 50

/-- One quality preset `{maxWidth, maxHeight, quality}`. Dimensions and
quality are embedded as rationals (JS numbers, exact at these values). -/
structure Preset where
  maxWidth : ℚ
  maxHeight : ℚ
  quality : ℚ
deriving Repr, DecidableEq

/-- `IMAGE_PRESETS`: named preset table; `none` maps to `null` (strip
images entirely), unknown names are absent (`undefined`), both embedded
as `Option.none`. -/
def IMAGE_PRESETS (name : String) : Option Preset :=
  if name = "high" then some ⟨1200, 900, 90/100⟩
  else if name = "medium" then some ⟨800, 600, 85/100⟩
  else if name = "low" then some ⟨500, 375, 75/100⟩
  else none

/-- `calculateScale(width, height, maxWidth, maxHeight)`:
`Math.min(maxWidth/width, maxHeight/height, 1)`. -/
def calculateScale (width height maxWidth maxHeight : ℚ) : ℚ :=
  min (min (maxWidth / width) (maxHeight / height)) 1

/-- `shouldSkipImage(src, width, height)`: skip data URLs (already
embedded) and images with either dimension below `MIN_IMAGE_SIZE`. -/
def shouldSkipImage (src : String) (width height : Nat) : Bool :=
  if jsStartsWith src "data:" then true
  else if width < MIN_IMAGE_SIZE || height < MIN_IMAGE_SIZE then true
  else false

/-- JS `Math.round`: round half toward positive infinity, `⌊x + 1/2⌋`. -/
def jsRound (x : ℚ) : ℤ := ⌊x + 1/2⌋

/-- `getScaledDimensions(width, height, preset)`: `null` when the preset
resolves to no config; otherwise each axis is `Math.round(dim * scale)`. -/
def getScaledDimensions (width height : ℚ) (preset : String) : Option (ℤ × ℤ) :=
  match IMAGE_PRESETS preset with
  | none => none
  | some config =>
    let scale := calculateScale width height config.maxWidth config.maxHeight
    some (jsRound (width * scale), jsRound (height * scale))

/-! ### Evaluation and bounding lemmas for `jsRound` -/

/-- Evaluate `jsRound` through an exact fraction `n / k`. -/
theorem jsRound_eval (x : ℚ) (n : ℤ) (k : ℕ) (hx : x + 1/2 = (n : ℚ) / (k : ℚ)) :
    jsRound x = n / (k : ℤ) := by
  unfold jsRound
  rw [hx, Rat.floor_intCast_div_natCast]

/-- Rounding half-up never passes an integer bound that the argument respects. -/
theorem jsRound_le_int (x : ℚ) (m : ℤ) (h : x ≤ (m : ℚ)) : jsRound x ≤ m := by
  unfold jsRound
  have h2 : ⌊x + 1/2⌋ ≤ ⌊(m : ℚ) + 1/2⌋ := Int.floor_le_floor (by linarith)
  have h3 : ⌊(m : ℚ) + 1/2⌋ = m + ⌊(1/2 : ℚ)⌋ := Int.floor_int_add m (1/2 : ℚ)
  have h4 : ⌊(1/2 : ℚ)⌋ = 0 := by
    rw [show (1/2 : ℚ) = ((1 : ℤ) : ℚ) / ((2 : ℕ) : ℚ) by norm_num,
      Rat.floor_intCast_div_natCast]
    decide
  omega

/-- If the scale is at most `maxX / x`, the rounded scaled axis is at most
`maxX` (an integer `m`). -/
theorem jsRound_le_of_le_div (x s maxX : ℚ) (m : ℤ) (hx : 0 < x)
    (hm : (m : ℚ) = maxX) (hs : s ≤ maxX / x) : ((jsRound (x * s) : ℤ) : ℚ) ≤ maxX := by
  have h1 : x * s ≤ maxX := by
    have h' := mul_le_mul_of_nonneg_left hs hx.le
    rwa [mul_comm x (maxX / x), div_mul_cancel₀ _ (ne_of_gt hx)] at h'
  have h2 : jsRound (x * s) ≤ m := jsRound_le_int _ m (by rw [hm]; exact h1)
  calc ((jsRound (x * s) : ℤ) : ℚ) ≤ (m : ℚ) := by exact_mod_cast h2
    _ = maxX := hm

/-! ### Claims C6, C7, C10 -/

/-- C6: `shouldSkip(source, width, height)` returns true iff the source is
already a data URL or either dimension is strictly below the fixed minimum
of 50; at exactly (50, 50) with a non-embedded source it returns false. -/
theorem shouldSkipImage_spec :
    (∀ (src : String) (w h : Nat),
      shouldSkipImage src w h = true ↔
        (jsStartsWith src "data:" = true ∨ w < 50 ∨ h < 50)) ∧
    (∀ src : String, jsStartsWith src "data:" = false →
        shouldSkipImage src 50 50 = false) := by
  constructor
  · intro src w h
    unfold shouldSkipImage MIN_IMAGE_SIZE
    by_cases hd : jsStartsWith src "data:" = true <;> simp [hd]
  · intro src hd
    unfold shouldSkipImage MIN_IMAGE_SIZE
    simp [hd]

/-- Witness for C6: a concrete non-embedded source at the exact threshold
is not skipped. -/
theorem shouldSkipImage_spec_witness :
    jsStartsWith "https://example.com/small.png" "data:" = false ∧
    shouldSkipImage "https://example.com/small.png" 50 50 = false :=
  ⟨by decide, shouldSkipImage_spec.2 "https://example.com/small.png" (by decide)⟩

/-- C7: `getScaledDimensions` returns `none` exactly when the preset is the
"no images" sentinel or unrecognized (i.e. resolves to no preset config,
which happens iff it is none of "high"/"medium"/"low"); otherwise it
returns each axis rounded (half-up) from `dim * factor` where
`factor = min(maxWidth/width, maxHeight/height, 1)`; and the spec example
2000×1500 under `medium` (800×600) yields exactly 800×600. -/
theorem getScaledDimensions_spec :
    (∀ (w h : ℚ) (preset : String),
        getScaledDimensions w h preset = none ↔ IMAGE_PRESETS preset = none) ∧
    (∀ preset : String, IMAGE_PRESETS preset = none ↔
        (preset ≠ "high" ∧ preset ≠ "medium" ∧ preset ≠ "low")) ∧
    (∀ (w h : ℚ) (preset : String) (config : Preset),
        IMAGE_PRESETS preset = some config →
        getScaledDimensions w h preset =
          some (jsRound (w * min (min (config.maxWidth / w) (config.maxHeight / h)) 1),
                jsRound (h * min (min (config.maxWidth / w) (config.maxHeight / h)) 1))) ∧
    getScaledDimensions 2000 1500 "medium" = some (800, 600) := by
  refine ⟨?_, ?_, ?_, ?_⟩
  · intro w h preset
    unfold getScaledDimensions
    cases hp : IMAGE_PRESETS preset <;> simp
  · intro preset
    unfold IMAGE_PRESETS
    by_cases h1 : preset = "high"
    · subst h1; simp
    · by_cases h2 : preset = "medium"
      · subst h2; simp
      · by_cases h3 : preset = "low"
        · subst h3; simp
        · simp [h1, h2, h3]
  · intro w h preset config hc
    unfold getScaledDimensions calculateScale
    rw [hc]
  · have hs : min (min ((800 : ℚ)/2000) (600/1500)) 1 = 2/5 := by norm_num
    have e1 : jsRound ((2000 : ℚ) * (2/5)) = 800 := by
      rw [jsRound_eval _ 1601 2 (by norm_num)]; decide
    have e2 : jsRound ((1500 : ℚ) * (2/5)) = 600 := by
      rw [jsRound_eval _ 1201 2 (by norm_num)]; decide
    have hm : IMAGE_PRESETS "medium" = some ⟨800, 600, 85/100⟩ := rfl
    unfold getScaledDimensions calculateScale
    rw [hm]
    simp only
    rw [hs, e1, e2]

/-- Witness for C7: the formula conjunct applied at a concrete input,
with its preset-lookup hypothesis discharged definitionally. -/
theorem getScaledDimensions_spec_witness :
    getScaledDimensions 40 60 "high" =
      some (jsRound (40 * min (min ((1200 : ℚ) / 40) (900 / 60)) 1),
            jsRound (60 * min (min ((1200 : ℚ) / 40) (900 / 60)) 1)) :=
  getScaledDimensions_spec.2.2.1 40 60 "high" ⟨1200, 900, 90/100⟩ rfl

/-- C10: for every recognized preset (i.e. "high"/"medium"/"low") and all
positive dimensions, the scaled dimensions never exceed the preset's
maxima — rounding cannot push an axis past `maxWidth`/`maxHeight`. -/
theorem getScaledDimensions_bounded (preset : String) (config : Preset)
    (hc : IMAGE_PRESETS preset = some config) (w h : ℚ) (hw : 0 < w) (hh : 0 < h)
    (dw dh : ℤ) (hd : getScaledDimensions w h preset = some (dw, dh)) :
    (dw : ℚ) ≤ config.maxWidth ∧ (dh : ℚ) ≤ config.maxHeight := by
  unfold getScaledDimensions at hd
  rw [hc] at hd
  simp only [Option.some.injEq, Prod.mk.injEq] at hd
  obtain ⟨h1, h2⟩ := hd
  subst h1; subst h2
  unfold IMAGE_PRESETS at hc
  split_ifs at hc
  · injection hc with hcfg; subst hcfg
    exact ⟨jsRound_le_of_le_div w _ _ 1200 hw (by norm_num)
        (le_trans (min_le_left _ _) (min_le_left _ _)),
      jsRound_le_of_le_div h _ _ 900 hh (by norm_num)
        (le_trans (min_le_left _ _) (min_le_right _ _))⟩
  · injection hc with hcfg; subst hcfg
    exact ⟨jsRound_le_of_le_div w _ _ 800 hw (by norm_num)
        (le_trans (min_le_left _ _) (min_le_left _ _)),
      jsRound_le_of_le_div h _ _ 600 hh (by norm_num)
        (le_trans (min_le_left _ _) (min_le_right _ _))⟩
  · injection hc with hcfg; subst hcfg
    exact ⟨jsRound_le_of_le_div w _ _ 500 hw (by norm_num)
        (le_trans (min_le_left _ _) (min_le_left _ _)),
      jsRound_le_of_le_div h _ _ 375 hh (by norm_num)
        (le_trans (min_le_left _ _) (min_le_right _ _))⟩

/-- Witness for C10: a concrete 1000×1000 image under the `low` preset
stays within 500×375. -/
theorem getScaledDimensions_bounded_witness :
    ((jsRound ((1000 : ℚ) * calculateScale 1000 1000 500 375) : ℤ) : ℚ) ≤ 500 ∧
    ((jsRound ((1000 : ℚ) * calculateScale 1000 1000 500 375) : ℤ) : ℚ) ≤ 375 :=
  getScaledDimensions_bounded "low" ⟨500, 375, 75/100⟩ rfl 1000 1000
    (by decide) (by decide) _ _ rfl

/-! ## DOM model

A DOM subtree is a rose tree of element nodes (tag, attributes, children)
and text nodes.  An article (one conversation turn) is the list of child
nodes of its root element; `cloneNode(true)` is value copying, implicit in
a pure embedding.  `el.querySelectorAll(sel).forEach(el => el.remove())`
removes every node matching `sel` at every depth (removing a matching
ancestor also removes its matching descendants, so one recursive filter
pass is its exact effect). -/

inductive Node where
  | element (tag : String) (attrs : List (String × String)) (children : List Node)
  | text (s : String)

/-- `el.getAttribute(name)`: first binding of `name` in the attribute list. -/
def getAttr (attrs : List (String × String)) (name : String) : Option String :=
  (attrs.find? (fun q => q.1 = name)).map (fun q => q.2)

/-! ### The CSS selectors of the `SELECTORS` table, as element predicates -/

/-- `[data-testid="products-widget"]` (shopping/product suggestions). -/
def isProductsWidget (_tag : String) (attrs : List (String × String)) : Bool :=
  getAttr attrs "data-testid" = some "products-widget"

/-- `span[data-state="closed"]` (collapsed tooltips/popovers). -/
def isClosedPopover (tag : String) (attrs : List (String × String)) : Bool :=
  tag = "span" && getAttr attrs "data-state" = some "closed"

/-- `[class="sr-only"]` (accessibility-only text; exact class-attribute match). -/
def isScreenReaderOnly (_tag : String) (attrs : List (String × String)) : Bool :=
  getAttr attrs "class" = some "sr-only"

/-- `button:not([disabled]), input, select, textarea, [role="button"]`. -/
def isInteractive (tag : String) (attrs : List (String × String)) : Bool :=
  (tag = "button" && (getAttr attrs "disabled").isNone) ||
  tag = "input" || tag = "select" || tag = "textarea" ||
  getAttr attrs "role" = some "button"

/-- `div[id^="image-"]` (DALL-E image containers, `id="image-{uuid}"`). -/
def isDalleImageContainer (tag : String) (attrs : List (String × String)) : Bool :=
  tag = "div" &&
    (match getAttr attrs "id" with
     | some v => jsStartsWith v "image-"
     | none => false)

/-- `root.querySelectorAll(sel).forEach(el => el.remove())` where `sel`
matches via the element predicate `p`: drop every matching element at
every depth. -/
def removeAllList (p : String → List (String × String) → Bool) : List Node → List Node
  | [] => []
  | .text s :: ns => .text s :: removeAllList p ns
  | .element t a c :: ns =>
      if p t a then removeAllList p ns
      else .element t a (removeAllList p c) :: removeAllList p ns

/-- The fixed attribute allow-list `['class', 'href', 'target', 'rel', 'src', 'alt']`. -/
def allowedAttrs : List String := ["class", "href", "target", "rel", "src", "alt"]

/-- The explicit second pass over every element
(`tempDiv.querySelectorAll('*')` + `removeAttribute`): drop every
attribute whose name is not in `allowedAttrs`, at every depth. -/
def stripAttrsList : List Node → List Node
  | [] => []
  | .text s :: ns => .text s :: stripAttrsList ns
  | .element t a c :: ns =>
      .element t (a.filter fun q => allowedAttrs.contains q.1) (stripAttrsList c) ::
        stripAttrsList ns

/-- Every attribute of every element of the forest is on the allow-list. -/
def attrsAllowedList : List Node → Prop
  | [] => True
  | .text _ :: ns => attrsAllowedList ns
  | .element _ a c :: ns =>
      (∀ q ∈ a, allowedAttrs.contains q.1 = true) ∧ attrsAllowedList c ∧ attrsAllowedList ns

/-- The cleaning stage of `processArticle` (source order): the four
structural removals on the clone, the DALL-E container removal only in
`'none'` mode, then the DOMPurify allow-list pass (external collaborator,
passed in as `sanitize`), then the explicit attribute-strip pass. -/
def cleanStage (sanitize : List Node → List Node) (imageQuality : String)
    (article : List Node) : List Node :=
  let clone := article
  let c1 := removeAllList isProductsWidget clone
  let c2 := removeAllList isClosedPopover c1
  let c3 := removeAllList isScreenReaderOnly c2
  let c4 := removeAllList isInteractive c3
  let c5 := if imageQuality = "none" then removeAllList isDalleImageContainer c4 else c4
  stripAttrsList (sanitize c5)

/-- The spec's pre-filter (§4.3 stage 1), as a standalone composition:
widget containers, closed popovers, screen-reader-only nodes, interactive
controls, and — only under the "no images" sentinel — generation-image
containers. -/
def preFilterSpec (imageQuality : String) (article : List Node) : List Node :=
  let c4 := removeAllList isInteractive (removeAllList isScreenReaderOnly
    (removeAllList isClosedPopover (removeAllList isProductsWidget article)))
  if imageQuality = "none" then removeAllList isDalleImageContainer c4 else c4

/-- The spec's stage 2: the allow-list sanitization pass followed by the
explicit attribute-strip pass. -/
def allowListStage (sanitize : List Node → List Node) (ns : List Node) : List Node :=
  stripAttrsList (sanitize ns)

/-! ### Claims C5 and C8 -/

/-- C5: the cleaning stage equals the composition of the allow-list stage
after the structural pre-filter, in that order, for every sanitizer,
quality preset and turn subtree; and whenever the preset is not the
"no images" sentinel, the pre-filter is exactly the four structural
removals (no generation-image containers removed). -/
theorem cleanStage_two_stage :
    (∀ (sanitize : List Node → List Node) (q : String) (article : List Node),
      cleanStage sanitize q article = allowListStage sanitize (preFilterSpec q article)) ∧
    (∀ (q : String) (article : List Node), q ≠ "none" →
      preFilterSpec q article =
        removeAllList isInteractive (removeAllList isScreenReaderOnly
          (removeAllList isClosedPopover (removeAllList isProductsWidget article)))) := by
  constructor
  · intro sanitize q article
    rfl
  · intro q article hq
    simp [preFilterSpec, hq]

/-- Witness for C5: the pre-filter under the `medium` preset on a concrete
turn does not touch DALL-E containers. -/
theorem cleanStage_two_stage_witness :
    preFilterSpec "medium" [Node.element "div" [("id", "image-42")] []] =
      removeAllList isInteractive (removeAllList isScreenReaderOnly
        (removeAllList isClosedPopover (removeAllList isProductsWidget
          [Node.element "div" [("id", "image-42")] []]))) :=
  cleanStage_two_stage.2 "medium" [Node.element "div" [("id", "image-42")] []]
    (by decide)

/-- The attribute-strip pass establishes the allow-list invariant on any
forest whatsoever. -/
theorem stripAttrsList_allowed : ∀ ns, attrsAllowedList (stripAttrsList ns) := by
  intro ns
  induction ns using stripAttrsList.induct with
  | case1 => simp [stripAttrsList, attrsAllowedList]
  | case2 s ns ih => simpa [stripAttrsList, attrsAllowedList] using ih
  | case3 t a c ns ihc ihn =>
    simp only [stripAttrsList, attrsAllowedList]
    refine ⟨?_, ihc, ihn⟩
    intro q hq
    simp only [List.mem_filter] at hq
    exact hq.2

/-- C8: immediately after the two-stage cleaning, every attribute on every
element of the resulting fragment is on the fixed allow-list
`{class, href, target, rel, src, alt}` — for every sanitizer output
whatsoever (the external sanitizer is universally quantified). -/
theorem cleanStage_attrs_allowed :
    ∀ (sanitize : List Node → List Node) (q : String) (article : List Node),
      attrsAllowedList (cleanStage sanitize q article) := by
  intro sanitize q article
  unfold cleanStage
  exact stripAttrsList_allowed _

/-! ## Conversion entry point (`content.js`)

`convertToHTML(selectedTheme, imageQuality)` with the page state passed
explicitly: the streaming signal, the presence of the `main` container,
the article subtrees inside it, whether DOMPurify is loaded (`purify` is
`none` when the global is `undefined`), and the post-cleaning stage of
`processArticle` (image embedding + syntax highlighting + `pre`
normalization, a total fragment transformation — those steps are guarded
and cannot throw).  The produced artifact is the ordered document body:
per turn, its role flag and processed fragment; `none` when no file
download is triggered. -/

/-- `[data-message-author-role=role]` descendant search. -/
def containsMatch (p : String → List (String × String) → Bool) : List Node → Bool
  | [] => false
  | .text _ :: ns => containsMatch p ns
  | .element t a c :: ns => p t a || containsMatch p c || containsMatch p ns

/-- `[data-message-author-role="user"]` / `"assistant"` marker predicate. -/
def isRoleMarker (role : String) (_tag : String) (attrs : List (String × String)) : Bool :=
  getAttr attrs "data-message-author-role" = some role

/-- `isUserMessage(article, index)`: data-attribute detection first,
index-parity fallback. -/
def isUserMessage (article : List Node) (index : Nat) : Bool :=
  if containsMatch (isRoleMarker "user") article then true
  else if containsMatch (isRoleMarker "assistant") article then false
  else index % 2 == 0

/-- `processArticle(article, imageQuality)`: throws when DOMPurify is
absent; otherwise cleans the turn and applies the post-cleaning stage. -/
def processArticle (purify : Option (List Node → List Node))
    (post : List Node → List Node) (imageQuality : String)
    (article : List Node) : Except String (List Node) :=
  match purify with
  | none => .error "DOMPurify library not loaded. Try refreshing the page."
  | some sanitize => .ok (post (cleanStage sanitize imageQuality article))

/-- The per-article loop of `convertToHTML`: sequential, in order, first
thrown error aborts the whole run. -/
def processArticles (purify : Option (List Node → List Node))
    (post : List Node → List Node) (imageQuality : String) :
    List (List Node) → Nat → Except String (List (Bool × List Node))
  | [], _ => .ok []
  | a :: rest, index =>
    match processArticle purify post imageQuality a with
    | .error e => .error e
    | .ok content =>
      match processArticles purify post imageQuality rest (index + 1) with
      | .error e => .error e
      | .ok tail => .ok ((isUserMessage a index, content) :: tail)

/-- Page state read by `convertToHTML` (the input collaborator). -/
structure Page where
  streaming : Bool
  hasMain : Bool
  articles : List (List Node)
  title : String
  purify : Option (List Node → List Node)
  post : List Node → List Node

/-- Structured result of `convertToHTML`; a missing `isStreaming` field in
the JS object is the falsy `false`. -/
structure ConvertResult where
  success : Bool
  error : Option String
  isStreaming : Bool
  messageCount : Option Nat
  artifact : Option (List (Bool × List Node))

/-- `convertToHTML(selectedTheme, imageQuality)` over an explicit page
state: streaming guard, container/turn precondition checks, the per-turn
loop (whose first thrown error is caught at the top level and converted
into a structured failure), then the single artifact emission. -/
def convertToHTML (page : Page) (_selectedTheme imageQuality : String) : ConvertResult :=
  if page.streaming then
    { success := false
      error := some "ChatGPT is still generating a response. Please wait for it to finish."
      isStreaming := true, messageCount := none, artifact := none }
  else if !page.hasMain then
    { success := false
      error := some "Could not find the conversation. Make sure you are on a ChatGPT chat page."
      isStreaming := false, messageCount := none, artifact := none }
  else if page.articles.isEmpty then
    { success := false, error := some "No messages found in this conversation."
      isStreaming := false, messageCount := none, artifact := none }
  else
    match processArticles page.purify page.post imageQuality page.articles 0 with
    | .error e =>
      { success := false, error := some e
        isStreaming := false, messageCount := none, artifact := none }
    | .ok turns =>
      { success := true, error := none, isStreaming := false
        messageCount := some page.articles.length, artifact := some turns }

/-! ### Claims C3 and C4 -/

/-- C3: whenever the streaming signal is true, `convertToHTML` returns
`{success:false, isStreaming:true}` with an error message and no artifact,
and the result is a fixed constant — independent of the articles, the
sanitizer, the post stage and every other page or parameter component, so
no turn processing can influence it. -/
theorem convertToHTML_streaming (page : Page) (theme q : String)
    (hs : page.streaming = true) :
    convertToHTML page theme q =
      { success := false
        error := some "ChatGPT is still generating a response. Please wait for it to finish."
        isStreaming := true, messageCount := none, artifact := none } := by
  unfold convertToHTML
  rw [hs]
  simp

/-- Witness for C3: a concrete streaming page. -/
theorem convertToHTML_streaming_witness :
    convertToHTML ⟨true, true, [[Node.text "hi"]], "t", some id, id⟩ "auto" "medium" =
      { success := false
        error := some "ChatGPT is still generating a response. Please wait for it to finish."
        isStreaming := true, messageCount := none, artifact := none } :=
  convertToHTML_streaming ⟨true, true, [[Node.text "hi"]], "t", some id, id⟩
    "auto" "medium" rfl

/-- C4: if DOMPurify is absent (and the run gets past the preconditions so
that at least one turn is processed), the whole conversion fails with the
descriptive error thrown by `processArticle` and caught at the top level;
no artifact is produced, so no turn's content is ever emitted unsanitized. -/
theorem convertToHTML_no_dompurify (page : Page) (theme q : String)
    (hs : page.streaming = false) (hm : page.hasMain = true)
    (ha : page.articles ≠ []) (hp : page.purify = none) :
    convertToHTML page theme q =
      { success := false
        error := some "DOMPurify library not loaded. Try refreshing the page."
        isStreaming := false, messageCount := none, artifact := none } := by
  unfold convertToHTML
  rw [hs, hm]
  obtain ⟨a, rest, hrest⟩ : ∃ a rest, page.articles = a :: rest := by
    cases h : page.articles with
    | nil => exact absurd h ha
    | cons a rest => exact ⟨a, rest, rfl⟩
  rw [hrest]
  simp only [List.isEmpty_cons, Bool.false_eq_true, if_false]
  rw [processArticles, hp]
  rfl

/-- Witness for C4: a concrete page with one turn and DOMPurify missing. -/
theorem convertToHTML_no_dompurify_witness :
    convertToHTML ⟨false, true, [[Node.text "x"]], "t", none, id⟩ "auto" "medium" =
      { success := false
        error := some "DOMPurify library not loaded. Try refreshing the page."
        isStreaming := false, messageCount := none, artifact := none } :=
  convertToHTML_no_dompurify ⟨false, true, [[Node.text "x"]], "t", none, id⟩
    "auto" "medium" rfl rfl (by simp) rfl

/-! ## Per-image processing (`images.js`, browser part)

An `<img>` element carries its source, alt text, natural dimensions, and
two environment oracles: whether a load/error event fires when awaited
(`loadEvent`) and the outcome of `canvas.toDataURL` (`encodeOutcome`,
which throws on cross-origin taint). -/

structure ImgElement where
  src : String
  alt : String
  naturalWidth : Nat
  naturalHeight : Nat
  complete : Bool
  loadEvent : Bool
  encodeOutcome : Except String String

/-- The standardized image-result object shape built by
`createImageResult`; absent JS fields are the falsy `none` / `false`. -/
structure ImageResult where
  success : Bool
  dataUrl : Option String
  originalSrc : Option String
  skipped : Bool
  error : Option String
  fallbackUrl : Option String

namespace createImageResult

/-- `createImageResult.success(dataUrl, originalSrc)`. -/
def success (dataUrl originalSrc : String) : ImageResult :=
  ⟨true, some dataUrl, some originalSrc, false, none, none⟩

/-- `createImageResult.skipped(dataUrl)`. -/
def skipped (dataUrl : String) : ImageResult :=
  ⟨true, some dataUrl, none, true, none, none⟩

/-- `createImageResult.error(error, originalSrc)`: failure carrying the
original source, duplicated into `fallbackUrl`. -/
def error (err originalSrc : String) : ImageResult :=
  ⟨false, none, some originalSrc, false, some err, some originalSrc⟩

end createImageResult

/-- `waitForLoad(img)`: already-loaded resources resolve immediately,
others await a load (resolve) or error (reject) signal. -/
def waitForLoad (img : ImgElement) : Except String Unit :=
  if img.complete && img.naturalWidth > 0 then .ok ()
  else if img.loadEvent then .ok () else .error "Image failed to load"

/-- `resizeAndEncode(img, preset)`: throws on an invalid preset; sizes an
off-document canvas to the scaled dimensions and encodes; `toDataURL`
throws when the image is cross-origin without CORS headers
(`encodeOutcome` oracle). -/
def resizeAndEncode (img : ImgElement) (preset : String) : Except String String :=
  match IMAGE_PRESETS preset with
  | none => .error ("Invalid preset: " ++ preset)
  | some _config =>
    let _dims := getScaledDimensions img.naturalWidth img.naturalHeight preset
    img.encodeOutcome

/-- `processImage(img, preset)`: skip check first; then one load attempt
and one encode attempt inside try/catch — every failure is converted into
an error result, nothing is thrown past this boundary. -/
def processImage (img : ImgElement) (preset : String) : ImageResult :=
  let originalSrc := img.src
  if shouldSkipImage originalSrc img.naturalWidth img.naturalHeight then
    createImageResult.skipped originalSrc
  else
    match waitForLoad img with
    | .error e => createImageResult.error e originalSrc
    | .ok _ =>
      match resizeAndEncode img preset with
      | .error e => createImageResult.error e originalSrc
      | .ok dataUrl => createImageResult.success dataUrl originalSrc

/-- What each `<img>` in the container becomes after `processAllImages`. -/
inductive ImgOutcome where
  | kept (src : String)
  | embedded (dataUrl : String)
  | fallbackLink (url : String)
  | placeholder (textContent : String)

/-- The `{processed, failed, skipped}` counters. -/
structure ImgStats where
  processed : Nat
  failed : Nat
  skipped : Nat
deriving Repr, DecidableEq

/-- The sequential per-image loop of `processAllImages` (valid presets):
skipped images are left as-is, successes get the data URL spliced in with
the `exported-image` class, failures are replaced by the
`span.image-error` fallback-link marker. -/
def processImagesLoop (preset : String) : List ImgElement → List ImgOutcome × ImgStats
  | [] => ([], ⟨0, 0, 0⟩)
  | img :: rest =>
    let result := processImage img preset
    let tail := processImagesLoop preset rest
    if result.skipped then
      (.kept img.src :: tail.1, ⟨tail.2.processed, tail.2.failed, tail.2.skipped + 1⟩)
    else if result.success then
      (.embedded (result.dataUrl.getD "") :: tail.1,
        ⟨tail.2.processed + 1, tail.2.failed, tail.2.skipped⟩)
    else
      (.fallbackLink (result.fallbackUrl.getD "") :: tail.1,
        ⟨tail.2.processed, tail.2.failed + 1, tail.2.skipped⟩)

/-- `processAllImages(container, preset)`: the `'none'`/invalid-preset
branch replaces every image by an inert placeholder (`img.alt ||
'[Image removed]'`); otherwise the sequential loop runs. -/
def processAllImages (imgs : List ImgElement) (preset : String) :
    List ImgOutcome × ImgStats :=
  if preset = "none" || (IMAGE_PRESETS preset).isNone then
    (imgs.map (fun img =>
        .placeholder (if img.alt = "" then "[Image removed]" else img.alt)),
     ⟨0, 0, imgs.length⟩)
  else
    processImagesLoop preset imgs

/-! ### Claim C2 -/

/-- A failed `processImage` always carries the original source as fallback. -/
theorem processImage_fallbackUrl (img : ImgElement) (preset : String)
    (hf : (processImage img preset).success = false) :
    (processImage img preset).fallbackUrl = some img.src := by
  unfold processImage at *
  by_cases hs : shouldSkipImage img.src img.naturalWidth img.naturalHeight = true
  · simp [hs, createImageResult.skipped] at hf
  · simp only [Bool.not_eq_true] at hs
    simp only [hs, if_false] at *
    cases hw : waitForLoad img with
    | error e => simp [hw, createImageResult.error]
    | ok u =>
      simp only [hw] at *
      cases hr : resizeAndEncode img preset with
      | error e => simp [hr, createImageResult.error]
      | ok d => simp [hr, createImageResult.success] at hf

/-- Per-image classification of the loop, by induction on the image list:
the run never aborts (one outcome per image), a failed image becomes a
fallback-link marker to its original source, and each counter counts
exactly its own class. -/
theorem processImagesLoop_spec (preset : String) : ∀ imgs : List ImgElement,
    (processImagesLoop preset imgs).1.length = imgs.length ∧
    (∀ j, (hj : j < imgs.length) →
      (processImage (imgs.get ⟨j, hj⟩) preset).success = false →
      (processImagesLoop preset imgs).1[j]? =
        some (.fallbackLink (imgs.get ⟨j, hj⟩).src)) ∧
    (processImagesLoop preset imgs).2.failed =
      (imgs.filter fun i => !(processImage i preset).success).length ∧
    (processImagesLoop preset imgs).2.processed =
      (imgs.filter fun i =>
        (processImage i preset).success && !(processImage i preset).skipped).length ∧
    (processImagesLoop preset imgs).2.skipped =
      (imgs.filter fun i => (processImage i preset).skipped).length := by
  intro imgs
  induction imgs with
  | nil => simp [processImagesLoop]
  | cons img rest ih =>
    obtain ⟨ihlen, ihidx, ihf, ihp, ihs⟩ := ih
    have hskip_succ : (processImage img preset).skipped = true →
        (processImage img preset).success = true := by
      intro h
      unfold processImage at *
      by_cases hs : shouldSkipImage img.src img.naturalWidth img.naturalHeight = true
      · simp [hs, createImageResult.skipped]
      · simp only [Bool.not_eq_true] at hs
        simp only [hs, if_false] at *
        cases hw : waitForLoad img with
        | error e => simp [hw, createImageResult.error] at h
        | ok u =>
          simp only [hw] at h ⊢
          cases hr : resizeAndEncode img preset with
          | error e => simp [hr, createImageResult.error] at h
          | ok d => simp [hr, createImageResult.success]
    by_cases h1 : (processImage img preset).skipped = true
    · have h2 := hskip_succ h1
      refine ⟨?_, ?_, ?_, ?_, ?_⟩ <;>
        simp only [processImagesLoop, h1, h2, if_true, Bool.not_true, Bool.true_and,
          Bool.and_self, List.filter_cons, List.length_cons]
      · simp [ihlen]
      · intro j hj hfail
        cases j with
        | zero =>
          simp only [List.get] at hfail
          rw [h2] at hfail
          exact absurd hfail (by simp)
        | succ k =>
          simp only [List.length_cons, Nat.succ_lt_succ_iff] at hj
          simpa using ihidx k hj (by simpa using hfail)
      · simp [h2, h1, ihf]
      · simp [h2, h1, ihp]
      · simp [h2, h1, ihs]
    · simp only [Bool.not_eq_true] at h1
      by_cases h2 : (processImage img preset).success = true
      · refine ⟨?_, ?_, ?_, ?_, ?_⟩ <;>
          simp only [processImagesLoop, h1, h2, Bool.false_eq_true, if_false, if_true,
            List.filter_cons, List.length_cons]
        · simp [ihlen]
        · intro j hj hfail
          cases j with
          | zero =>
            simp only [List.get] at hfail
            rw [h2] at hfail
            exact absurd hfail (by simp)
          | succ k =>
            simp only [List.length_cons, Nat.succ_lt_succ_iff] at hj
            simpa using ihidx k hj (by simpa using hfail)
        · simp [h2, h1, ihf]
        · simp [h2, h1, ihp]
        · simp [h2, h1, ihs]
      · simp only [Bool.not_eq_true] at h2
        have hfb := processImage_fallbackUrl img preset h2
        refine ⟨?_, ?_, ?_, ?_, ?_⟩ <;>
          simp only [processImagesLoop, h1, h2, Bool.false_eq_true, if_false,
            List.filter_cons, List.length_cons]
        · simp [ihlen]
        · intro j hj hfail
          cases j with
          | zero => simp [hfb]
          | succ k =>
            simp only [List.length_cons, Nat.succ_lt_succ_iff] at hj
            simpa using ihidx k hj (by simpa using hfail)
        · simp [h2, h1, ihf]
        · simp [h2, h1, ihp]
        · simp [h2, h1, ihs]

/-- C2: a per-image failure (load rejection or render/encode throw) never
escapes `processImage` — it is converted into an error result carrying the
original source as fallback link, with the failure result shape
`{success:false, fallbackUrl:originalSrc}` — and under a valid preset
`processAllImages` completes over every image, replaces exactly the failed
ones with fallback-link markers to their original sources, and its
counters count exactly their own classes (a failure increments only the
failure counter). -/
theorem imageFailure_contained :
    (∀ (img : ImgElement) (preset : String),
      shouldSkipImage img.src img.naturalWidth img.naturalHeight = false →
      ((∃ e, waitForLoad img = .error e) ∨ (∃ e, resizeAndEncode img preset = .error e)) →
      ∃ e, processImage img preset = createImageResult.error e img.src) ∧
    (∀ e src : String, (createImageResult.error e src).success = false ∧
      (createImageResult.error e src).fallbackUrl = some src) ∧
    (∀ preset : String, (IMAGE_PRESETS preset).isSome = true →
      ∀ imgs : List ImgElement,
        (processAllImages imgs preset).1.length = imgs.length ∧
        (∀ j, (hj : j < imgs.length) →
          (processImage (imgs.get ⟨j, hj⟩) preset).success = false →
          (processAllImages imgs preset).1[j]? =
            some (.fallbackLink (imgs.get ⟨j, hj⟩).src)) ∧
        (processAllImages imgs preset).2.failed =
          (imgs.filter fun i => !(processImage i preset).success).length ∧
        (processAllImages imgs preset).2.processed =
          (imgs.filter fun i =>
            (processImage i preset).success && !(processImage i preset).skipped).length ∧
        (processAllImages imgs preset).2.skipped =
          (imgs.filter fun i => (processImage i preset).skipped).length) := by
  refine ⟨?_, ?_, ?_⟩
  · intro img preset hns hf
    unfold processImage
    simp only [hns, Bool.false_eq_true, if_false]
    cases hw : waitForLoad img with
    | error e => exact ⟨e, rfl⟩
    | ok u =>
      cases hr : resizeAndEncode img preset with
      | error e => exact ⟨e, rfl⟩
      | ok d =>
        rcases hf with ⟨e, he⟩ | ⟨e, he⟩
        · rw [hw] at he; exact absurd he (by simp)
        · rw [hr] at he; exact absurd he (by simp)
  · intro e src
    exact ⟨rfl, rfl⟩
  · intro preset hv imgs
    have hbranch : (preset = "none" || (IMAGE_PRESETS preset).isNone) = false := by
      by_cases hn : preset = "none"
      · subst hn
        simp [IMAGE_PRESETS] at hv
      · simp [hn, Option.isNone_iff_eq_none]
        exact hv
    unfold processAllImages
    rw [hbranch]
    simp only [Bool.false_eq_true, if_false]
    exact processImagesLoop_spec preset imgs

/-- Witness for C2: a concrete non-skippable image whose load attempt
rejects becomes an error result carrying its source. -/
theorem imageFailure_contained_witness :
    ∃ e, processImage ⟨"https://h/p.png", "", 100, 100, false, false, .ok "d"⟩ "medium" =
      createImageResult.error e "https://h/p.png" :=
  imageFailure_contained.1 ⟨"https://h/p.png", "", 100, 100, false, false, .ok "d"⟩
    "medium" (by decide) (.inl ⟨"Image failed to load", rfl⟩)

/-! ## Filename sanitization (`content/utils.js`)

`sanitizeFilename(title)` is the method chain: NFKC-normalize, the
global character-class replace to hyphen, the global hyphen-run replace
to a single hyphen, the global edge-hyphen delete, `.trim()`, then the
`|| 'chatgpt-conversation'` fallback.
JS strings are embedded via their character lists; the NFKC
normalization is an external Unicode collaborator, passed in as `nfkc`. -/

/-- The character class `[\x00-\x1F\x7F<>:"\/\\|?*]` (filesystem-unsafe
control and punctuation characters; `0x22` is the double quote). -/
def forbiddenChar (c : Char) : Bool :=
  c.toNat ≤ 0x1F || c.toNat = 0x7F ||
  c = '<' || c = '>' || c = ':' || c.toNat = 0x22 ||
  c = '/' || c = '\\' || c = '|' || c = '?' || c = '*'

/-- The global character-class replace: each matching character becomes a hyphen. -/
def replaceForbidden (cs : List Char) : List Char :=
  cs.map fun c => if forbiddenChar c then '-' else c

/-- The global hyphen-run replace: each maximal run of hyphens shrinks
to one (pairwise scan — the first of every adjacent hyphen pair drops). -/
def collapseHyphens : List Char → List Char
  | [] => []
  | [c] => [c]
  | c1 :: c2 :: rest =>
    if c1 = '-' ∧ c2 = '-' then collapseHyphens (c2 :: rest)
    else c1 :: collapseHyphens (c2 :: rest)

/-- One application of `^-` (the regex `^-|-$` removes at most one
leading and one trailing hyphen per pass). -/
def dropOneLeadHyphen : List Char → List Char
  | [] => []
  | c :: rest => if c = '-' then rest else c :: rest

/-- The global edge-hyphen delete: one leading and one trailing hyphen removed. -/
def trimEdgeHyphens (cs : List Char) : List Char :=
  (dropOneLeadHyphen (dropOneLeadHyphen cs).reverse).reverse

/-- The JS `WhiteSpace`/`LineTerminator` code points recognized by
`String.prototype.trim`. -/
def jsWhitespace (c : Char) : Bool :=
  c.toNat = 0x09 || c.toNat = 0x0A || c.toNat = 0x0B || c.toNat = 0x0C ||
  c.toNat = 0x0D || c.toNat = 0x20 || c.toNat = 0xA0 || c.toNat = 0x1680 ||
  (0x2000 ≤ c.toNat && c.toNat ≤ 0x200A) ||
  c.toNat = 0x2028 || c.toNat = 0x2029 || c.toNat = 0x202F || c.toNat = 0x205F ||
  c.toNat = 0x3000 || c.toNat = 0xFEFF

/-- `.trim()`: strip leading and trailing whitespace. -/
def jsTrim (cs : List Char) : List Char :=
  ((cs.dropWhile jsWhitespace).reverse.dropWhile jsWhitespace).reverse

/-- The pre-fallback part of the `sanitizeFilename` method chain. -/
def pipelineChars (nfkc : String → String) (title : String) : List Char :=
  jsTrim (trimEdgeHyphens (collapseHyphens (replaceForbidden (nfkc title).data)))

/-- `sanitizeFilename(title)`: the chain, with the `|| 'chatgpt-conversation'`
fallback on the falsy empty string. -/
def sanitizeFilename (nfkc : String → String) (title : String) : String :=
  let s := pipelineChars nfkc title
  if s = [] then "chatgpt-conversation" else String.mk s

/-- Hyphen-run collapsing as the spec words it: a hyphen opens a run and
the whole rest of the run is dropped. -/
def specCollapse : List Char → List Char
  | [] => []
  | c :: rest =>
    if c = '-' then '-' :: specCollapse (rest.dropWhile fun x => x = '-')
    else c :: specCollapse rest
termination_by cs => cs.length
decreasing_by
  · simp only [List.length_cons]
    exact Nat.lt_succ_of_le ((List.dropWhile_suffix _).sublist.length_le)
  · simp

/-- The filename sanitizer as the spec words it (for refinement against
the source chain): Unicode-normalize, replace each filesystem-unsafe
character with a hyphen, collapse runs of repeated hyphens to one, trim
all leading/trailing hyphens and whitespace, placeholder when empty. -/
def specSanitizeFilename (nfkc : String → String) (title : String) : String :=
  let step1 := (nfkc title).data.map fun c => if forbiddenChar c then '-' else c
  let step2 := specCollapse step1
  let step3 := ((step2.dropWhile fun c => c = '-').reverse.dropWhile fun c => c = '-').reverse
  let step4 := jsTrim step3
  if step4 = [] then "chatgpt-conversation" else String.mk step4

/-! ### Refinement lemmas for C9 -/

/-- No two adjacent hyphens. -/
def noDoubleHyphen (cs : List Char) : Prop :=
  List.Chain' (fun a b => ¬(a = '-' ∧ b = '-')) cs

/-- The pairwise scan computes exactly the spec's run collapsing. -/
theorem collapseHyphens_eq_spec : ∀ cs, collapseHyphens cs = specCollapse cs := by
  intro cs
  induction cs using collapseHyphens.induct with
  | case1 => simp [collapseHyphens, specCollapse]
  | case2 c =>
    by_cases hc : c = '-'
    · subst hc; simp [collapseHyphens, specCollapse]
    · simp [collapseHyphens, specCollapse, hc]
  | case3 c1 c2 rest hb ih =>
    obtain ⟨h1, h2⟩ := hb
    subst h1; subst h2
    have l1 : collapseHyphens ('-' :: '-' :: rest) = collapseHyphens ('-' :: rest) := by
      simp [collapseHyphens]
    have r2 : specCollapse ('-' :: rest) =
        '-' :: specCollapse (rest.dropWhile fun x => x = '-') := by
      simp [specCollapse]
    have r1 : specCollapse ('-' :: '-' :: rest) =
        '-' :: specCollapse (rest.dropWhile fun x => x = '-') := by
      conv_lhs => rw [specCollapse]
      simp [List.dropWhile_cons, r2]
    rw [l1, ih, r2, r1]
  | case4 c1 c2 rest hb ih =>
    have l1 : collapseHyphens (c1 :: c2 :: rest) = c1 :: collapseHyphens (c2 :: rest) := by
      simp [collapseHyphens, hb]
    rw [l1, ih]
    by_cases h1 : c1 = '-'
    · subst h1
      have h2 : ¬c2 = '-' := fun hc => hb ⟨rfl, hc⟩
      have r1 : specCollapse ('-' :: c2 :: rest) = '-' :: specCollapse (c2 :: rest) := by
        conv_lhs => rw [specCollapse]
        simp [List.dropWhile_cons, h2]
      rw [r1]
    · have r1 : specCollapse (c1 :: c2 :: rest) = c1 :: specCollapse (c2 :: rest) := by
        conv_lhs => rw [specCollapse]
        simp [h1]
      rw [r1]

/-- `specCollapse` preserves the head of the list. -/
theorem specCollapse_head : ∀ cs : List Char, (specCollapse cs).head? = cs.head? := by
  intro cs
  induction cs using specCollapse.induct with
  | case1 => simp [specCollapse]
  | case2 rest ih => simp [specCollapse]
  | case3 c rest hc ih => simp [specCollapse, hc]

/-- The head of a `dropWhile` result fails the predicate. -/
theorem head_dropWhile_false (p : Char → Bool) :
    ∀ (l : List Char) (y : Char), (l.dropWhile p).head? = some y → p y = false := by
  intro l
  induction l with
  | nil => intro y h; simp [List.dropWhile] at h
  | cons a t ih =>
    intro y h
    rw [List.dropWhile_cons] at h
    by_cases hp : p a = true
    · rw [if_pos hp] at h
      exact ih y h
    · rw [if_neg hp] at h
      simp only [List.head?_cons, Option.some.injEq] at h
      subst h
      simpa using hp


/-- `specCollapse` leaves no two adjacent hyphens. -/
theorem specCollapse_noDouble : ∀ cs, noDoubleHyphen (specCollapse cs) := by
  intro cs
  induction cs using specCollapse.induct with
  | case1 => simp [specCollapse, noDoubleHyphen]
  | case2 rest ih =>
    have r : specCollapse ('-' :: rest) =
        '-' :: specCollapse (rest.dropWhile fun x => x = '-') := by
      simp [specCollapse]
    rw [r, noDoubleHyphen, List.chain'_cons']
    refine ⟨?_, ih⟩
    intro y hy
    rw [specCollapse_head] at hy
    have hp := head_dropWhile_false (fun x => decide (x = '-')) rest y hy
    simp only [decide_eq_false_iff_not] at hp
    exact fun h => hp h.2
  | case3 c rest hc ih =>
    have r : specCollapse (c :: rest) = c :: specCollapse rest := by
      simp [specCollapse, hc]
    rw [r, noDoubleHyphen, List.chain'_cons']
    exact ⟨fun y _ h => hc h.1, ih⟩

/-- Under the no-double-hyphen invariant, removing one leading hyphen
removes them all. -/
theorem dropOne_eq_dropWhile (cs : List Char) (h : noDoubleHyphen cs) :
    dropOneLeadHyphen cs = cs.dropWhile fun c => c = '-' := by
  cases cs with
  | nil => rfl
  | cons c rest =>
    by_cases hc : c = '-'
    · subst hc
      have l : dropOneLeadHyphen ('-' :: rest) = rest := by
        simp [dropOneLeadHyphen]
      have r : ('-' :: rest).dropWhile (fun c => c = '-') =
          rest.dropWhile (fun c => c = '-') := by
        rw [List.dropWhile_cons]
        simp
      rw [l, r]
      cases rest with
      | nil => rfl
      | cons b t =>
        rw [noDoubleHyphen, List.chain'_cons'] at h
        have hb : ¬b = '-' := fun hb => h.1 b rfl ⟨rfl, hb⟩
        rw [List.dropWhile_cons, if_neg (by simpa using hb)]
    · simp only [dropOneLeadHyphen, if_neg hc]
      rw [List.dropWhile_cons, if_neg (by simpa using hc)]

/-- `noDoubleHyphen` transfers to the reverse. -/
theorem noDouble_reverse (cs : List Char) (h : noDoubleHyphen cs) :
    noDoubleHyphen cs.reverse := by
  rw [noDoubleHyphen, List.chain'_reverse]
  exact h.imp fun a b hab => fun hr => hab ⟨hr.2, hr.1⟩

/-- Under the no-double-hyphen invariant, the regex edge trim equals the
spec's full hyphen trim. -/
theorem trimEdge_eq_dropAll (cs : List Char) (h : noDoubleHyphen cs) :
    trimEdgeHyphens cs =
      ((cs.dropWhile fun c => c = '-').reverse.dropWhile fun c => c = '-').reverse := by
  unfold trimEdgeHyphens
  rw [dropOne_eq_dropWhile cs h]
  have h1 : noDoubleHyphen (cs.dropWhile fun c => c = '-') :=
    List.Chain'.suffix h (List.dropWhile_suffix _)
  rw [dropOne_eq_dropWhile _ (noDouble_reverse _ h1)]

/-- C9 equality part: the source chain equals the spec pipeline. -/
theorem sanitizeFilename_eq_spec (nfkc : String → String) (title : String) :
    sanitizeFilename nfkc title = specSanitizeFilename nfkc title := by
  unfold sanitizeFilename specSanitizeFilename pipelineChars replaceForbidden
  rw [collapseHyphens_eq_spec, trimEdge_eq_dropAll _ (specCollapse_noDouble _)]

/-- `dropWhile` is the identity when the head fails the predicate. -/
theorem dropWhile_eq_self_of_head (p : Char → Bool) (cs : List Char)
    (h : ∀ c, cs.head? = some c → p c = false) : cs.dropWhile p = cs := by
  cases cs with
  | nil => rfl
  | cons b t =>
    rw [List.dropWhile_cons, if_neg]
    simp [h b rfl]

/-- `collapseHyphens` is the identity on hyphen-free strings. -/
theorem collapseHyphens_eq_self : ∀ cs : List Char, (∀ c ∈ cs, c ≠ '-') →
    collapseHyphens cs = cs := by
  intro cs
  induction cs using collapseHyphens.induct with
  | case1 => intro _; simp [collapseHyphens]
  | case2 c => intro _; simp [collapseHyphens]
  | case3 c1 c2 rest hb ih =>
    intro hall
    exact absurd hb.1 (hall c1 (by simp))
  | case4 c1 c2 rest hb ih =>
    intro hall
    have l1 : collapseHyphens (c1 :: c2 :: rest) = c1 :: collapseHyphens (c2 :: rest) := by
      simp [collapseHyphens, hb]
    rw [l1, ih fun c hc => hall c (List.mem_cons_of_mem _ hc)]

/-- `dropOneLeadHyphen` is the identity when the head is not a hyphen. -/
theorem dropOne_eq_self (cs : List Char) (h : ∀ c, cs.head? = some c → c ≠ '-') :
    dropOneLeadHyphen cs = cs := by
  cases cs with
  | nil => rfl
  | cons b t => simp only [dropOneLeadHyphen, if_neg (h b rfl)]

/-- C9, assembled: the sanitizer equals the spec pipeline
(normalize → hyphen-replace → collapse → hyphen-trim → whitespace-trim →
placeholder fallback); the fixed placeholder is returned exactly when the
pipeline result is otherwise empty; and any already-normalized title made
of safe characters (no filesystem-unsafe character, no hyphen, no edge
whitespace) — Unicode letters, emoji, accents — passes through unchanged. -/
theorem sanitizeFilename_spec :
    (∀ (nfkc : String → String) (title : String),
      sanitizeFilename nfkc title = specSanitizeFilename nfkc title) ∧
    (∀ (nfkc : String → String) (title : String),
      (pipelineChars nfkc title = [] →
        sanitizeFilename nfkc title = "chatgpt-conversation") ∧
      (pipelineChars nfkc title ≠ [] →
        sanitizeFilename nfkc title = String.mk (pipelineChars nfkc title))) ∧
    (∀ (nfkc : String → String) (title : String),
      nfkc title = title →
      (∀ c ∈ title.data, forbiddenChar c = false ∧ c ≠ '-') →
      title.data ≠ [] →
      (∀ c, title.data.head? = some c → jsWhitespace c = false) →
      (∀ c, title.data.getLast? = some c → jsWhitespace c = false) →
      sanitizeFilename nfkc title = title) := by
  refine ⟨sanitizeFilename_eq_spec, ?_, ?_⟩
  · intro nfkc title
    constructor
    · intro h
      unfold sanitizeFilename
      rw [if_pos h]
    · intro h
      unfold sanitizeFilename
      rw [if_neg h]
  · intro nfkc title hn hsafe hne hhead hlast
    have hmap : replaceForbidden title.data = title.data := by
      unfold replaceForbidden
      rw [List.map_congr_left fun c hc => by rw [if_neg]; simp [(hsafe c hc).1]]
      exact List.map_id _
    have hcoll : collapseHyphens title.data = title.data :=
      collapseHyphens_eq_self _ fun c hc => (hsafe c hc).2
    have htrim1 : trimEdgeHyphens title.data = title.data := by
      unfold trimEdgeHyphens
      rw [dropOne_eq_self _ fun c hc => (hsafe c (List.mem_of_mem_head? hc)).2]
      rw [dropOne_eq_self _ fun c hc => by
        rw [List.head?_reverse] at hc
        exact (hsafe c (List.mem_of_mem_getLast? hc)).2]
      exact List.reverse_reverse _
    have htrim2 : jsTrim title.data = title.data := by
      unfold jsTrim
      rw [dropWhile_eq_self_of_head _ _ hhead]
      rw [dropWhile_eq_self_of_head _ _ fun c hc => by
        rw [List.head?_reverse] at hc
        exact hlast c hc]
      exact List.reverse_reverse _
    unfold sanitizeFilename pipelineChars
    rw [hn, hmap, hcoll, htrim1, htrim2, if_neg hne]

/-- Witness for C9: an accented title with an emoji passes through
unchanged under an identity normalizer. -/
theorem sanitizeFilename_spec_witness :
    sanitizeFilename id "café🎉" = "café🎉" :=
  sanitizeFilename_spec.2.2 id "café🎉" rfl (by decide) (by decide)
    (by decide) (by decide)

/-! ## Batch scheduler (`processInBatches`)

Modelled from the spec: the implementation of `processInBatches` lives in
`content/utils.js` (added in v1.2.0 per the changelog), which is not among
the sources — only its unit tests and its changelog entry are.  The loop
is therefore modelled from §4.4 of the spec: consecutive
`items.slice(i, i + batchSize)` chunks; within a chunk, `transform`
applied to each item in original order; after each completed chunk,
`onProgress(min(i + batchSize, total), total)`, then one yield; all
results returned in input order.  The injected `onProgress`/`yieldFn`
callbacks only observe, so a run is instrumented as the ordered list of
progress reports plus the yield count; a `batchSize` of `0` on nonempty
input makes the JS `for` loop diverge, embedded as `Option.none`. -/

/-- One instrumented run of the scheduler. -/
structure BatchRun (β : Type) where
  results : List β
  progress : List (Nat × Nat)
  yields : Nat

/-- The chunk decomposition: consecutive slices of length `b1 + 1`
(batch size at least 1), last chunk possibly shorter. -/
def batchChunks (b1 : Nat) : List α → List (List α)
  | [] => []
  | x :: xs => ((x :: xs).take (b1 + 1)) :: batchChunks b1 ((x :: xs).drop (b1 + 1))
termination_by xs => xs.length
decreasing_by
  simp only [List.length_drop, List.length_cons]
  omega

/-- The chunk loop: one progress report `(min (i + b) total, total)` and
one yield per chunk, results concatenated in order. -/
def runChunks (transform : α → β) (total b : Nat) :
    List (List α) → Nat → BatchRun β
  | [], _ => ⟨[], [], 0⟩
  | c :: cs, i =>
    let tail := runChunks transform total b cs (i + b)
    ⟨c.map transform ++ tail.results,
     (min (i + b) total, total) :: tail.progress,
     tail.yields + 1⟩

/-- `processInBatches(items, transform, {batchSize, yieldFn, onProgress})`. -/
def processInBatches (items : List α) (transform : α → β) (batchSize : Nat) :
    Option (BatchRun β) :=
  match batchSize with
  | 0 => if items.isEmpty then some ⟨[], [], 0⟩ else none
  | b1 + 1 =>
    some (runChunks transform items.length (b1 + 1) (batchChunks b1 items) 0)

/-- The chunks reassemble to the input. -/
theorem batchChunks_join (b1 : Nat) :
    ∀ xs : List α, (batchChunks b1 xs).flatten = xs := by
  refine batchChunks.induct b1 (fun l => (batchChunks b1 l).flatten = l) ?_ ?_
  · simp [batchChunks]
  · intro x xs0 ih
    rw [batchChunks]
    simp only [List.flatten_cons, ih]
    exact List.take_append_drop _ _

/-- The number of chunks is `⌈n / b⌉ = (n + b - 1) / b` with `b = b1 + 1`. -/
theorem batchChunks_length (b1 : Nat) :
    ∀ xs : List α, (batchChunks b1 xs).length = (xs.length + b1) / (b1 + 1) := by
  refine batchChunks.induct b1
    (fun l => (batchChunks b1 l).length = (l.length + b1) / (b1 + 1)) ?_ ?_
  · simp [batchChunks, Nat.div_eq_of_lt (by omega : b1 < b1 + 1)]
  · intro x xs0 ih
    rw [batchChunks]
    simp only [List.length_cons, ih, List.length_drop]
    rcases Nat.lt_or_ge (xs0.length + 1) (b1 + 1) with hlt | hge
    · rw [show xs0.length + 1 - (b1 + 1) + b1 = b1 by omega,
        Nat.div_eq_of_lt (by omega : b1 < b1 + 1),
        show xs0.length + 1 + b1 = xs0.length + (b1 + 1) by omega,
        Nat.add_div_right _ (by omega : 0 < b1 + 1),
        Nat.div_eq_of_lt (by omega : xs0.length < b1 + 1)]
    · rw [show xs0.length + 1 - (b1 + 1) + b1 = xs0.length by omega,
        show xs0.length + 1 + b1 = xs0.length + (b1 + 1) by omega,
        Nat.add_div_right _ (by omega : 0 < b1 + 1)]

/-- Results, yield count, report count and clamping of the chunk loop. -/
theorem runChunks_basic (transform : α → β) (total b : Nat) :
    ∀ (cs : List (List α)) (i : Nat),
      (runChunks transform total b cs i).results = (cs.flatten).map transform ∧
      (runChunks transform total b cs i).yields = cs.length ∧
      (runChunks transform total b cs i).progress.length = cs.length ∧
      (∀ p ∈ (runChunks transform total b cs i).progress,
        p.1 ≤ total ∧ p.2 = total) := by
  intro cs
  induction cs with
  | nil => intro i; simp [runChunks]
  | cons c cs ih =>
    intro i
    obtain ⟨h1, h2, h3, h4⟩ := ih (i + b)
    refine ⟨?_, ?_, ?_, ?_⟩
    · simp [runChunks, h1]
    · simp [runChunks, h2]
    · simp [runChunks, h3]
    · intro p hp
      simp only [runChunks, List.mem_cons] at hp
      rcases hp with rfl | hp
      · exact ⟨min_le_right _ _, rfl⟩
      · exact h4 p hp

/-- `batchChunks` of a nonempty list is nonempty. -/
theorem batchChunks_ne_nil (b1 : Nat) (xs : List α) (h : xs ≠ []) :
    batchChunks b1 xs ≠ [] := by
  cases xs with
  | nil => exact absurd rfl h
  | cons x xs0 =>
    rw [batchChunks]
    exact List.cons_ne_nil _ _

/-- The final progress report of a nonempty run is `(total, total)` where
`total = i + |xs|` counts all items. -/
theorem runChunks_last (transform : α → β) (b1 : Nat) :
    ∀ (xs : List α), xs ≠ [] → ∀ i : Nat,
      (runChunks transform (i + xs.length) (b1 + 1)
        (batchChunks b1 xs) i).progress.getLast? =
        some (i + xs.length, i + xs.length) := by
  refine batchChunks.induct b1
    (fun l => l ≠ [] → ∀ i : Nat,
      (runChunks transform (i + l.length) (b1 + 1)
        (batchChunks b1 l) i).progress.getLast? =
        some (i + l.length, i + l.length)) ?_ ?_
  · intro h; exact absurd rfl h
  · intro x xs0 ih _ i
    rw [batchChunks]
    by_cases hd : (x :: xs0).drop (b1 + 1) = []
    · have hlen : (x :: xs0).length ≤ b1 + 1 := by
        have := congrArg List.length hd
        simp only [List.length_drop, List.length_nil] at this
        omega
      rw [hd, batchChunks]
      simp only [runChunks]
      rw [min_eq_right (by omega : i + (x :: xs0).length ≤ i + (b1 + 1))]
      rfl
    · have hlen : b1 + 1 < (x :: xs0).length := by
        rcases Nat.lt_or_ge (b1 + 1) ((x :: xs0).length) with h | h
        · exact h
        · exact absurd (List.drop_eq_nil_of_le h) hd
      have harith : i + (b1 + 1) + ((x :: xs0).drop (b1 + 1)).length =
          i + (x :: xs0).length := by
        simp only [List.length_drop]
        omega
      have htail := ih hd (i + (b1 + 1))
      rw [harith] at htail
      simp only [runChunks]
      have hpne : (runChunks transform (i + (x :: xs0).length) (b1 + 1)
          (batchChunks b1 ((x :: xs0).drop (b1 + 1))) (i + (b1 + 1))).progress ≠ [] := by
        have hlenp := (runChunks_basic transform (i + (x :: xs0).length) (b1 + 1)
          (batchChunks b1 ((x :: xs0).drop (b1 + 1))) (i + (b1 + 1))).2.2.1
        intro habs
        rw [habs] at hlenp
        have hcne := batchChunks_ne_nil b1 _ hd
        simp only [List.length_nil] at hlenp
        exact hcne (List.length_eq_zero.mp hlenp.symm)
      cases hpq : (runChunks transform (i + (x :: xs0).length) (b1 + 1)
          (batchChunks b1 ((x :: xs0).drop (b1 + 1))) (i + (b1 + 1))).progress with
      | nil => exact absurd hpq hpne
      | cons q tq =>
        rw [List.getLast?_cons_cons]
        rw [hpq] at htail
        exact htail

/-- C1: for every item list, transform and positive batch size, the
scheduler returns the transformed results in input order, emits exactly
`⌈n / b⌉` progress reports — each clamped (`processed ≤ total = n`), the
final one equal to `(n, n)` — and exactly `⌈n / b⌉` yields; empty input
gives an empty result with zero progress reports and zero yields. -/
theorem processInBatches_spec (items : List α) (transform : α → β) (b : Nat)
    (hb : 0 < b) :
    ∃ run : BatchRun β, processInBatches items transform b = some run ∧
      run.results = items.map transform ∧
      run.progress.length = (items.length + b - 1) / b ∧
      run.yields = (items.length + b - 1) / b ∧
      (∀ p ∈ run.progress, p.1 ≤ p.2 ∧ p.2 = items.length) ∧
      (items ≠ [] → run.progress.getLast? = some (items.length, items.length)) ∧
      (items = [] → run.results = [] ∧ run.progress = [] ∧ run.yields = 0) := by
  obtain ⟨b1, rfl⟩ : ∃ b1, b = b1 + 1 := ⟨b - 1, by omega⟩
  obtain ⟨h1, h2, h3, h4⟩ :=
    runChunks_basic transform items.length (b1 + 1) (batchChunks b1 items) 0
  have hceil : (items.length + (b1 + 1) - 1) / (b1 + 1) =
      (items.length + b1) / (b1 + 1) := by
    have harg : items.length + (b1 + 1) - 1 = items.length + b1 := by omega
    rw [harg]
  refine ⟨runChunks transform items.length (b1 + 1) (batchChunks b1 items) 0,
    rfl, ?_, ?_, ?_, ?_, ?_, ?_⟩
  · rw [h1, batchChunks_join]
  · rw [h3, batchChunks_length, hceil]
  · rw [h2, batchChunks_length, hceil]
  · intro p hp
    obtain ⟨hp1, hp2⟩ := h4 p hp
    exact ⟨by rw [hp2]; exact hp1, hp2⟩
  · intro hne
    have := runChunks_last transform b1 items hne 0
    rwa [Nat.zero_add] at this
  · intro he
    subst he
    simp [batchChunks, runChunks]

/-- Witness for C1: three items in batches of two. -/
theorem processInBatches_spec_witness :
    ∃ run : BatchRun Nat, processInBatches [1, 2, 3] (fun n => n * 10) 2 = some run ∧
      run.results = [1, 2, 3].map (fun n => n * 10) ∧
      run.progress.length = ([1, 2, 3].length + 2 - 1) / 2 ∧
      run.yields = ([1, 2, 3].length + 2 - 1) / 2 ∧
      (∀ p ∈ run.progress, p.1 ≤ p.2 ∧ p.2 = [1, 2, 3].length) ∧
      ([1, 2, 3] ≠ [] → run.progress.getLast? =
        some ([1, 2, 3].length, [1, 2, 3].length)) ∧
      ([1, 2, 3] = [] → run.results = [] ∧ run.progress = [] ∧ run.yields = 0) :=
  processInBatches_spec [1, 2, 3] (fun n => n * 10) 2 (by decide)

end GptChatSave
